import Mathlib

/-!
Verification development for the `selfupdater` Go package
(`ghr-self-updater`): a self-updating library driven by a remote release
source. The definitions below are a shallow embedding of `main.go`.
External effects (network calls, filesystem operations, launching the new
binary) are passed in as explicit outcome parameters; the filesystem state
relevant to the binary swap is threaded as an explicit record.
-/

namespace SelfUpdater

/-- A Go `error` value as produced by this code base: a message together
with the list of errors it wraps (`fmt.Errorf` with `%w` verbs wraps its
operands; `errors.Join` wraps the non-nil errors of its argument list).
The interpolated text of wrapped messages is not reproduced in `msg`;
`msg` holds the static format text. -/
inductive GoError where
  | mk (msg : String) (wrapped : List GoError)
deriving Repr

mutual

/-- Structural equality test for `GoError` (Go errors built from
`fmt.Errorf`/`errors.Join` compare by structure here). -/
def GoError.beq : GoError → GoError → Bool
  | .mk m ws, .mk m' ws' => m == m' && GoError.listBeq ws ws'

/-- Pointwise structural equality of error lists. -/
def GoError.listBeq : List GoError → List GoError → Bool
  | [], [] => true
  | e :: es, f :: fs => GoError.beq e f && GoError.listBeq es fs
  | _, _ => false

end

instance : BEq GoError := ⟨GoError.beq⟩

mutual

/-- Decidable equality on `GoError`. -/
def GoError.decEq : (a b : GoError) → Decidable (a = b)
  | .mk m ws, .mk m' ws' =>
    match String.decEq m m', GoError.listDecEq ws ws' with
    | isTrue h1, isTrue h2 => isTrue (by rw [h1, h2])
    | isFalse h1, _ => isFalse fun hh => h1 (by cases hh; rfl)
    | _, isFalse h2 => isFalse fun hh => h2 (by cases hh; rfl)

/-- Decidable equality on lists of `GoError`. -/
def GoError.listDecEq : (a b : List GoError) → Decidable (a = b)
  | [], [] => isTrue rfl
  | e :: es, f :: fs =>
    match GoError.decEq e f, GoError.listDecEq es fs with
    | isTrue h1, isTrue h2 => isTrue (by rw [h1, h2])
    | isFalse h1, _ => isFalse fun hh => h1 (by cases hh; rfl)
    | _, isFalse h2 => isFalse fun hh => h2 (by cases hh; rfl)
  | [], _ :: _ => isFalse fun hh => by cases hh
  | _ :: _, [] => isFalse fun hh => by cases hh

end

instance : DecidableEq GoError := GoError.decEq

/-- The static message text of the error `e.message`. -/
def GoError.message : GoError → String
  | .mk m _ => m

/-- The list of errors `e` wraps (Go `Unwrap() []error`). -/
def GoError.wrapped : GoError → List GoError
  | .mk _ ws => ws

mutual

/-- Transitive unwrap membership: `errContains e t` holds when `t` is `e`
itself or is reachable from `e` through wrapped errors (what Go's
`errors.Is` explores for structurally compared errors). -/
def errContains : GoError → GoError → Bool
  | .mk m ws, t => GoError.beq (.mk m ws) t || errListContains ws t

/-- Containment checked over each member of a list of wrapped errors. -/
def errListContains : List GoError → GoError → Bool
  | [], _ => false
  | e :: es, t => errContains e t || errListContains es t

end

/-- Go `errors.Join`: `nil` when every argument is `nil`, otherwise an
error wrapping the non-nil arguments in order. -/
def errorsJoin (es : List (Option GoError)) : Option GoError :=
  match es.filterMap id with
  | [] => none
  | l => some (.mk "" l)

/-- Decidable equality on `Except`, so that concrete results of fallible
operations can be checked by evaluation. -/
def exceptDecEq {α β : Type} [DecidableEq α] [DecidableEq β] :
    (a b : Except α β) → Decidable (a = b)
  | .ok x, .ok y =>
    match decEq x y with
    | isTrue h => isTrue (h ▸ rfl)
    | isFalse h => isFalse fun hh => h (Except.ok.inj hh)
  | .error x, .error y =>
    match decEq x y with
    | isTrue h => isTrue (h ▸ rfl)
    | isFalse h => isFalse fun hh => h (Except.error.inj hh)
  | .ok _, .error _ => isFalse fun hh => Except.noConfusion hh
  | .error _, .ok _ => isFalse fun hh => Except.noConfusion hh

instance {α β : Type} [DecidableEq α] [DecidableEq β] : DecidableEq (Except α β) :=
  exceptDecEq

/-- Go `strings.Contains s sub`: `sub` occurs as a contiguous substring of
`s` (some prefix-aligned occurrence at an offset of `s`). -/
def strContains (s sub : String) : Bool :=
  (List.range (s.toList.length + 1)).any fun i =>
    sub.toList.isPrefixOf (s.toList.drop i)

/-! ## Model of the semantic-version library (`github.com/blang/semver`)

The spec treats semantic-version parsing/comparison as an external library
capability; the definitions below embed the library's behaviour: strict
`major.minor.patch[-prerelease][+build]` parsing and the standard
precedence order. -/

/-- A prerelease identifier: numeric or alphanumeric. -/
inductive PRVersion where
  | num (n : ℕ)
  | alphanum (s : String)
deriving DecidableEq, Repr

/-- A parsed semantic version. -/
structure Version where
  major : ℕ
  minor : ℕ
  patch : ℕ
  pre : List PRVersion
  build : List String
deriving DecidableEq, Repr

/-- Go byte-wise string comparison as an ordering in `{-1, 0, 1}`
(ASCII-identical to character-wise comparison used here). -/
def strCompare (a b : String) : Int :=
  if a < b then -1 else if a = b then 0 else 1

/-- Comparison of prerelease identifiers: numeric identifiers order
numerically and sort below alphanumeric ones; alphanumeric identifiers
order lexically. -/
def prCompare : PRVersion → PRVersion → Int
  | .num a, .num b => if a < b then -1 else if a = b then 0 else 1
  | .num _, .alphanum _ => -1
  | .alphanum _, .num _ => 1
  | .alphanum a, .alphanum b => strCompare a b

/-- Element-wise comparison of non-empty prerelease lists; a strict prefix
sorts first. -/
def preListCompare : List PRVersion → List PRVersion → Int
  | [], [] => 0
  | [], _ :: _ => -1
  | _ :: _, [] => 1
  | a :: as, b :: bs =>
    let c := prCompare a b
    if c ≠ 0 then c else preListCompare as bs

/-- Version comparison `Version.Compare`: major, minor, patch numerically; then a version
without prerelease identifiers is greater than one with them; then the
prerelease lists element-wise. Build metadata is ignored. -/
def versionCompare (v o : Version) : Int :=
  if v.major ≠ o.major then (if v.major < o.major then -1 else 1)
  else if v.minor ≠ o.minor then (if v.minor < o.minor then -1 else 1)
  else if v.patch ≠ o.patch then (if v.patch < o.patch then -1 else 1)
  else
    match v.pre, o.pre with
    | [], [] => 0
    | [], _ :: _ => 1
    | _ :: _, [] => -1
    | a :: as, b :: bs => preListCompare (a :: as) (b :: bs)

/-- Less-or-equal `Version.LTE`: `v.Compare o <= 0`. -/
def versionLTE (v o : Version) : Bool :=
  versionCompare v o ≤ 0

/-- The digit characters admitted in numeric components. -/
def numberChars : List Char := "0123456789".toList

/-- The characters admitted in prerelease/build identifiers. -/
def alphanumChars : List Char :=
  "abcdefghijklmnopqrstuvwxyzABCDEFGHIJKLMNOPQRSTUVWXYZ-0123456789".toList

/-- Whether (`containsOnly s set`) every character of `s` is drawn from `set`. -/
def containsOnly (s : String) (set : List Char) : Bool :=
  s.toList.all fun c => set.contains c

/-- A numeric component with a superfluous leading zero. -/
def hasLeadingZeroes (s : String) : Bool :=
  match s.toList with
  | c :: _ :: _ => c = '0'
  | _ => false

/-- Numeric value of a digit string, most significant digit first. -/
def digitsVal (l : List Char) : ℕ :=
  l.foldl (fun n c => n * 10 + (c.toNat - '0'.toNat)) 0

/-- Go `strconv.ParseUint` on a base-10 component: its value, erring on the
empty string, on a non-digit character, and on overflow past
`2^64 - 1`. -/
def parseUintStrict (s : String) : Except String ℕ :=
  if s.toList.isEmpty then .error "parsing error"
  else if ¬ containsOnly s numberChars then .error "parsing error"
  else if digitsVal s.toList < 2 ^ 64 then .ok (digitsVal s.toList)
  else .error "value out of range"

/-- Split at the first occurrence of `c`, returning the parts before and
after it, or `none` when `c` does not occur (Go `strings.IndexRune`). -/
def splitFirst (c : Char) : List Char → Option (List Char × List Char)
  | [] => none
  | x :: xs =>
    if x = c then some ([], xs)
    else (splitFirst c xs).map fun p => (x :: p.1, p.2)

/-- Split at every occurrence of `c` (Go `strings.Split`); the empty
input yields one empty part. -/
def splitAll (c : Char) : List Char → List (List Char)
  | [] => [[]]
  | x :: xs =>
    if x = c then [] :: splitAll c xs
    else
      match splitAll c xs with
      | [] => [[x]]
      | h :: t => (x :: h) :: t

/-- Parse one numeric component of `major.minor.patch`: digits only, no
leading zeroes, within `uint64` range. -/
def parseVersionNum (s : String) (what : String) : Except String ℕ :=
  if ¬ containsOnly s numberChars then
    .error ("Invalid character(s) found in " ++ what ++ " number")
  else if hasLeadingZeroes s then
    .error (what ++ " number must not contain leading zeroes")
  else parseUintStrict s

/-- Parse one prerelease identifier: non-empty; numeric identifiers carry
no leading zeroes; otherwise alphanumeric characters only. -/
def newPRVersion (s : String) : Except String PRVersion :=
  if s.toList.isEmpty then .error "Prerelease is empty"
  else if containsOnly s numberChars then
    if hasLeadingZeroes s then
      .error "Numeric PreRelease version must not contain leading zeroes"
    else (parseUintStrict s).map .num
  else if containsOnly s alphanumChars then .ok (.alphanum s)
  else .error "Invalid character(s) found in prerelease"

/-- Parse one build identifier: non-empty, alphanumeric characters only. -/
def newBuildVersion (s : String) : Except String String :=
  if s.toList.isEmpty then .error "Buildversion is empty"
  else if ¬ containsOnly s alphanumChars then
    .error "Invalid character(s) found in build meta data"
  else .ok s

/-- The parser `semver.Parse`: strict `major.minor.patch[-prerelease][+build]`. The
input splits on the first two dots; build metadata is cut at the first
`+` of the last part, prerelease identifiers at the first `-` of what
remains, and both lists split on every dot. -/
def semverParse (s : String) : Except String Version :=
  if s.toList.isEmpty then .error "Version string empty"
  else
    match splitFirst '.' s.toList with
    | none => .error "No Major.Minor.Patch elements found"
    | some (majorCs, rest1) =>
      match splitFirst '.' rest1 with
      | none => .error "No Major.Minor.Patch elements found"
      | some (minorCs, rest2) => do
        let major ← parseVersionNum majorCs.asString "Major"
        let minor ← parseVersionNum minorCs.asString "Minor"
        let (patchPre, buildRaw) :=
          match splitFirst '+' rest2 with
          | none => (rest2, none)
          | some (a, b) => (a, some b)
        let (patchCs, preRaw) :=
          match splitFirst '-' patchPre with
          | none => (patchPre, none)
          | some (a, b) => (a, some b)
        let patch ← parseVersionNum patchCs.asString "Patch"
        let pre ←
          match preRaw with
          | none => pure []
          | some p => (splitAll '.' p).mapM fun cs => newPRVersion cs.asString
        let build ←
          match buildRaw with
          | none => pure []
          | some b => (splitAll '.' b).mapM fun cs => newBuildVersion cs.asString
        pure { major, minor, patch, pre, build }

/-! ## Data model of the updater (`main.go`) -/

/-- A downloadable release asset: opaque identifier and name
(`github.ReleaseAsset`, the two fields this package reads). -/
structure ReleaseAsset where
  id : Int
  name : String
deriving DecidableEq, Repr

/-- The latest release as returned by the release source: its version tag
and its asset list (`github.RepositoryRelease`, the fields this package
reads). -/
structure Release where
  tagName : String
  assets : List ReleaseAsset
deriving DecidableEq, Repr

/-- The `Updater` structure with its embedded `repositoryInfo` and
`installInfo` fields. The context and HTTP client are collaborator
handles with no bearing on the verified logic; the network itself is
passed to each operation as an explicit outcome. -/
structure Updater where
  owner : String
  repo : String
  current : Version
  assets : List ReleaseAsset
  platform : String
  assetID : Int
  assetName : String
  tmpPath : String
  exePath : String
deriving DecidableEq, Repr

/-- Constructor `New`: builds an `Updater` with the given identity and current
version; the asset list starts empty (Go nil slice) and the install
fields zero-valued. The platform string `{os}-{arch}` comes from the
runtime environment and is passed explicitly. -/
def New (owner repo : String) (current : Version) (platform : String) : Updater :=
  { owner, repo, current, assets := [], platform,
    assetID := 0, assetName := "", tmpPath := "", exePath := "" }

/-! ## CheckLatest -/

/-- The tag preprocessing inside `CheckLatest`:
`strings.ReplaceAll(tag, "v", "")`, i.e. every occurrence of the
character `v` is removed. -/
def stripTag (tag : String) : String :=
  (tag.toList.filter fun c => c ≠ 'v').asString

/-- The operation `CheckLatest`, with the release-source call abstracted as its outcome
`relResult`. Returns the `(bool, error)` pair and the updated `Updater`
(whose asset list is populated only on full success). -/
def checkLatest (u : Updater) (relResult : Except GoError Release) :
    (Bool × Option GoError) × Updater :=
  match relResult with
  | .error e => ((true, some e), u)
  | .ok rel =>
    match semverParse (stripTag rel.tagName) with
    | .error e => ((true, some (.mk e [])), u)
    | .ok latest => ((versionLTE latest u.current, none), { u with assets := rel.assets })

/-! ## getAsset -/

/-- Resolver `getAsset`: the first asset (in listed order) whose name contains the
platform string, else the error `release asset not found`
(`slices.IndexFunc` + indexing, rendered as the first satisfying
element). -/
def getAsset (u : Updater) : Except GoError ReleaseAsset :=
  match u.assets.find? (fun ra => strContains ra.name u.platform) with
  | none => .error (.mk "release asset not found" [])
  | some ra => .ok ra

/-! ## downloadAsset -/

/-- The outcomes of the external effects `downloadAsset` performs: the
release-source download call (paired with the redirect URL it reports),
the temp-file creation, and the stream copy. -/
structure DownloadOutcome where
  apiResult : Except GoError Unit
  redirect : String
  createResult : Except GoError Unit
  copyResult : Option GoError
deriving Repr

/-- What `downloadAsset` did: its returned error, and whether the temp
file was created (`os.Create` reached and succeeded). -/
structure DownloadTrace where
  result : Option GoError
  tempCreated : Bool
deriving Repr

/-- Download stage `downloadAsset`: fails on a download error; then fails fast on a
non-empty redirect URL (before any file is created, and without
following it — no path in the code follows a redirect); then sets
`tmpPath` to `{tempDir}/{assetName}` (Go `path.Join(os.TempDir(), ...)`),
creates the file and copies the stream into it. -/
def downloadAsset (u : Updater) (tempDir : String) (o : DownloadOutcome) :
    DownloadTrace × Updater :=
  match o.apiResult with
  | .error e => (⟨some (.mk "failed to download release asset" [e]), false⟩, u)
  | .ok _ =>
    if o.redirect ≠ "" then
      (⟨some (.mk "failed to handle redirect url" []), false⟩, u)
    else
      let u' := { u with tmpPath := tempDir ++ "/" ++ u.assetName }
      match o.createResult with
      | .error e =>
        (⟨some (.mk "failed to create temp downloaded release asset" [e]), false⟩, u')
      | .ok _ =>
        match o.copyResult with
        | some e =>
          (⟨some (.mk "failed to write downloaded release asset" [e]), true⟩, u')
        | none => (⟨none, true⟩, u')

/-! ## Binary swap: rollack / installNewRelease

The filesystem state the swap manipulates is the contents (abstract
content identifiers) of the three paths involved: the executable path,
`{exePath}-old`, and the downloaded temp file. Each filesystem operation
is given its outcome (`none` = success); a successful operation also
updates the filesystem state. -/

/-- Contents of the three swap-relevant paths. -/
structure Fs where
  exe : Option String
  old : Option String
  tmp : Option String
deriving DecidableEq, Repr

/-- Outcomes of the external effects `installNewRelease` (and its
rollback) performs, in program order. -/
structure InstallOutcome where
  exePathResult : Except GoError String
  renameOldResult : Option GoError
  renameNewResult : Option GoError
  chmodResult : Option GoError
  launchResult : Option GoError
  removeResult : Option GoError
  renameBackResult : Option GoError
deriving Repr

/-- Rollback `rollack`: removes the newly installed binary at the executable path,
then renames `{exePath}-old` back; both steps run unconditionally, each
failure is wrapped with its own message, and the two are combined with
`errors.Join` (nil when both succeeded). -/
def rollack (o : InstallOutcome) (fs : Fs) : Option GoError × Fs :=
  let remStep : Option GoError × Fs :=
    match o.removeResult with
    | some e => (some (.mk "failed to remove the new downloaded binary" [e]), fs)
    | none => (none, { fs with exe := none })
  let renStep : Option GoError × Fs :=
    match o.renameBackResult with
    | some e => (some (.mk "failed to rename back the old binary" [e]), remStep.2)
    | none => (none, { remStep.2 with exe := remStep.2.old, old := none })
  (errorsJoin [remStep.1, renStep.1], renStep.2)

/-- What `installNewRelease` did: its returned error, whether the chmod
step ran, and whether `rollack` was invoked. -/
structure InstallTrace where
  result : Option GoError
  chmodApplied : Bool
  rollbackInvoked : Bool
deriving Repr

/-- The tail of `installNewRelease` after the chmod block: launch the new
binary; on launch failure invoke `rollack` and return an error wrapping
the rollback error (when non-nil; a nil `%w` operand is not wrapped) and
the launch error. -/
def launchAndVerify (o : InstallOutcome) (fs : Fs) (u : Updater)
    (chmodApplied : Bool) : InstallTrace × Updater × Fs :=
  match o.launchResult with
  | none => (⟨none, chmodApplied, false⟩, u, fs)
  | some e =>
    let roll := rollack o fs
    (⟨some (.mk "failed to rollback after unsuccessful try on launching new binary"
        (roll.1.toList ++ [e])), chmodApplied, true⟩, u, roll.2)

/-- Install stage `installNewRelease`: resolve the executable path; rename it to
`{exePath}-old`; rename the temp file into the executable path; on Linux
platforms chmod the result; launch it; roll back on launch failure. Each
early return carries its stage-specific wrapping. -/
def installNewRelease (u : Updater) (o : InstallOutcome) (fs : Fs) :
    InstallTrace × Updater × Fs :=
  match o.exePathResult with
  | .error e =>
    (⟨some (.mk "failed to retrieve current executable path" [e]), false, false⟩, u, fs)
  | .ok exePath =>
    let u := { u with exePath := exePath }
    match o.renameOldResult with
    | some e => (⟨some (.mk "failed to rename the old binary" [e]), false, false⟩, u, fs)
    | none =>
      let fs := { fs with exe := none, old := fs.exe }
      match o.renameNewResult with
      | some e =>
        (⟨some (.mk "failed to rename the new binary with the old name" [e]),
          false, false⟩, u, fs)
      | none =>
        let fs := { fs with exe := fs.tmp, tmp := none }
        if strContains u.platform "linux" then
          match o.chmodResult with
          | some e =>
            (⟨some (.mk "failed to add executable permission on binary" [e]),
              true, false⟩, u, fs)
          | none => launchAndVerify o fs u true
        else launchAndVerify o fs u false

/-! ## Update / CheckAndUpdate -/

/-- What `Update` did: its returned error and which stages were
reached. -/
structure UpdateTrace where
  result : Option GoError
  downloadAttempted : Bool
  installAttempted : Bool
deriving Repr

/-- The operation `Update`: resolve the platform asset (failing without any download
when none is known), record its id and name, download it, then install
it. Stage errors are returned as-is. -/
def update (u : Updater) (tempDir : String) (dl : DownloadOutcome)
    (io : InstallOutcome) (fs : Fs) : UpdateTrace × Updater × Fs :=
  match getAsset u with
  | .error e => (⟨some e, false, false⟩, u, fs)
  | .ok asset =>
    let u := { u with assetID := asset.id, assetName := asset.name }
    let dres := downloadAsset u tempDir dl
    match dres.1.result with
    | some e => (⟨some e, true, false⟩, dres.2, fs)
    | none =>
      let ires := installNewRelease dres.2 io fs
      (⟨ires.1.result, true, true⟩, ires.2.1, ires.2.2)

/-- What `CheckAndUpdate` did: its returned error and whether `Update`
ran. -/
structure CheckAndUpdateTrace where
  result : Option GoError
  updateAttempted : Bool
deriving Repr

/-- The operation `CheckAndUpdate`: run `CheckLatest`; return its error if any; return
nil when already latest; otherwise run `Update`. -/
def checkAndUpdate (u : Updater) (relResult : Except GoError Release)
    (tempDir : String) (dl : DownloadOutcome) (io : InstallOutcome) (fs : Fs) :
    CheckAndUpdateTrace × Updater × Fs :=
  let cres := checkLatest u relResult
  match cres.1.2 with
  | some e => (⟨some e, false⟩, cres.2, fs)
  | none =>
    if cres.1.1 then (⟨none, false⟩, cres.2, fs)
    else
      let ures := update cres.2 tempDir dl io fs
      (⟨ures.1.result, true⟩, ures.2.1, ures.2.2)

/-! ## Shared sample values and helper notions used by the theorems -/

/-- The sample current version `1.2.3` of the spec's examples. -/
def currentV123 : Version := ⟨1, 2, 3, [], []⟩

/-- A freshly constructed updater on a Linux platform. -/
def sampleUpdater : Updater := New "mJehanno" "gtop" currentV123 "linux-amd64"

/-- The asset list of the spec's resolver example. -/
def specAssets : List ReleaseAsset :=
  [⟨1, "app_linux-amd64.tar.gz"⟩, ⟨2, "app_darwin-arm64"⟩]

/-- An install run in which every external operation succeeds. -/
def allOkInstall : InstallOutcome :=
  ⟨.ok "/usr/local/bin/app", none, none, none, none, none, none⟩

/-- A starting filesystem: the running executable is in place, no `-old`
leftover, and the downloaded binary sits at the temp path. -/
def fs0 : Fs := ⟨some "original-binary", none, some "new-binary"⟩

/-- Whether a returned `error` value transitively wraps `t`. -/
def resultContains (r : Option GoError) (t : GoError) : Bool :=
  match r with
  | none => false
  | some e => errContains e t

/-! ## Theorems for the specification claims -/

/-- C3: whenever `CheckLatest` returns a non-nil error — whether the
release source failed or the version tag failed to parse — the boolean it
returns is `true`. -/
theorem checkLatest_error_returns_true (u : Updater) (r : Except GoError Release)
    (b : Bool) (e : GoError) (h : (checkLatest u r).1 = (b, some e)) :
    b = true := by
  cases r with
  | error e' =>
    simp only [checkLatest] at h
    exact (Prod.mk.injEq .. ▸ h).1.symm
  | ok rel =>
    simp only [checkLatest] at h
    cases hp : semverParse (stripTag rel.tagName) with
    | error pe => rw [hp] at h; exact (Prod.mk.injEq .. ▸ h).1.symm
    | ok latest => rw [hp] at h; simp at h

/-- Witness for C3: a concrete release-source failure yields `true`. -/
theorem checkLatest_error_returns_true_witness :
    ((checkLatest sampleUpdater (.error (.mk "network unreachable" []))).1).1 = true :=
  checkLatest_error_returns_true sampleUpdater (.error (.mk "network unreachable" []))
    _ (.mk "network unreachable" []) (by decide)

/-- C7: `Update` on an updater whose asset list was never populated (the
empty list `New` starts with) fails with the not-found error
`release asset not found` and attempts neither the download nor the
install stage. -/
theorem update_without_check_fails (u : Updater) (tempDir : String)
    (dl : DownloadOutcome) (io : InstallOutcome) (fs : Fs) (h : u.assets = []) :
    (update u tempDir dl io fs).1.result = some (.mk "release asset not found" [])
    ∧ (update u tempDir dl io fs).1.downloadAttempted = false
    ∧ (update u tempDir dl io fs).1.installAttempted = false := by
  simp [update, getAsset, h]

/-- Witness for C7: a freshly constructed updater has no assets, and
`Update` stops before downloading. -/
theorem update_without_check_fails_witness :
    (update sampleUpdater "/tmp" ⟨.ok (), "", .ok (), none⟩ allOkInstall fs0).1.result
      = some (.mk "release asset not found" [])
    ∧ (update sampleUpdater "/tmp" ⟨.ok (), "", .ok (), none⟩ allOkInstall fs0).1.downloadAttempted
      = false
    ∧ (update sampleUpdater "/tmp" ⟨.ok (), "", .ok (), none⟩ allOkInstall fs0).1.installAttempted
      = false :=
  update_without_check_fails sampleUpdater "/tmp" ⟨.ok (), "", .ok (), none⟩
    allOkInstall fs0 (by decide)

/-- C8: when the release host reports a non-empty redirect URL for the
asset, the download fails with the explicit redirect-handling error and
no temporary file is created (the failure happens before `os.Create`,
and no code path follows the redirect). -/
theorem downloadAsset_redirect_fails_fast (u : Updater) (tempDir : String)
    (o : DownloadOutcome) (hok : o.apiResult = .ok ()) (hr : o.redirect ≠ "") :
    (downloadAsset u tempDir o).1
      = ⟨some (.mk "failed to handle redirect url" []), false⟩ := by
  obtain ⟨api, redir, create, copy⟩ := o
  simp only at hok hr
  simp [downloadAsset, hok, hr]

/-- Witness for C8: a concrete redirected download fails fast. -/
theorem downloadAsset_redirect_fails_fast_witness :
    (downloadAsset sampleUpdater "/tmp"
        ⟨.ok (), "https://cdn.example/asset", .ok (), none⟩).1
      = ⟨some (.mk "failed to handle redirect url" []), false⟩ :=
  downloadAsset_redirect_fails_fast sampleUpdater "/tmp"
    ⟨.ok (), "https://cdn.example/asset", .ok (), none⟩ rfl (by decide)

/-- C2: if the rename of the downloaded temp file into the executable
path fails after the running executable was already renamed to
`{path}-old`, the install returns that error at once, rollback is not
invoked, the original binary is not restored, and the executable path is
left empty (its content moved to `{path}-old`). -/
theorem install_rename_new_failure_no_rollback (u : Updater) (o : InstallOutcome)
    (fs : Fs) (p orig : String) (e : GoError)
    (h1 : o.exePathResult = .ok p) (h2 : o.renameOldResult = none)
    (h3 : o.renameNewResult = some e) (h4 : fs.exe = some orig) :
    (installNewRelease u o fs).1.result
      = some (.mk "failed to rename the new binary with the old name" [e])
    ∧ (installNewRelease u o fs).1.rollbackInvoked = false
    ∧ (installNewRelease u o fs).2.2.exe = none
    ∧ (installNewRelease u o fs).2.2.old = some orig := by
  obtain ⟨ep, ro, rn, ch, la, rm, rb⟩ := o
  simp only at h1 h2 h3
  simp [installNewRelease, h1, h2, h3, h4]

/-- Witness for C2: a concrete failed install-rename after a successful
aside-rename. -/
theorem install_rename_new_failure_no_rollback_witness :
    (installNewRelease sampleUpdater
        ⟨.ok "/usr/local/bin/app", none, some (.mk "no space left on device" []),
          none, none, none, none⟩ fs0).1.result
      = some (.mk "failed to rename the new binary with the old name"
          [.mk "no space left on device" []])
    ∧ (installNewRelease sampleUpdater
        ⟨.ok "/usr/local/bin/app", none, some (.mk "no space left on device" []),
          none, none, none, none⟩ fs0).1.rollbackInvoked = false
    ∧ (installNewRelease sampleUpdater
        ⟨.ok "/usr/local/bin/app", none, some (.mk "no space left on device" []),
          none, none, none, none⟩ fs0).2.2.exe = none
    ∧ (installNewRelease sampleUpdater
        ⟨.ok "/usr/local/bin/app", none, some (.mk "no space left on device" []),
          none, none, none, none⟩ fs0).2.2.old = some "original-binary" :=
  install_rename_new_failure_no_rollback sampleUpdater
    ⟨.ok "/usr/local/bin/app", none, some (.mk "no space left on device" []),
      none, none, none, none⟩ fs0 "/usr/local/bin/app" "original-binary"
    (.mk "no space left on device" []) rfl rfl rfl rfl

/-- C4: when `CheckLatest` succeeds its boolean is exactly
`latest.LTE(current)` — the parsed remote version is less than or equal
to the current one — and on the spec's examples: current `1.2.3` with
remote tag `v1.2.3` yields `true`, with remote tag `v1.3.0` yields
`false`. -/
theorem checkLatest_success_lte :
    (∀ (u : Updater) (rel : Release) (latest : Version),
      semverParse (stripTag rel.tagName) = .ok latest →
      (checkLatest u (.ok rel)).1 = (versionLTE latest u.current, none))
    ∧ (checkLatest sampleUpdater (.ok ⟨"v1.2.3", specAssets⟩)).1 = (true, none)
    ∧ (checkLatest sampleUpdater (.ok ⟨"v1.3.0", specAssets⟩)).1 = (false, none) := by
  refine ⟨?_, by decide, by decide⟩
  intro u rel latest hp
  simp [checkLatest, hp]

/-- Witness for C4: the universal part applied to a concrete newer
release. -/
theorem checkLatest_success_lte_witness :
    (checkLatest sampleUpdater (.ok ⟨"v9.9.9", []⟩)).1
      = (versionLTE ⟨9, 9, 9, [], []⟩ currentV123, none) :=
  checkLatest_success_lte.1 sampleUpdater ⟨"v9.9.9", []⟩ ⟨9, 9, 9, [], []⟩ (by decide)

/-- Modelled from the spec: the tag preprocessing as §4.1 words it —
strip a leading version-prefix character `v`, leaving all other
characters of the tag unchanged. -/
def stripLeadingV (tag : String) : String :=
  match tag.toList with
  | 'v' :: rest => rest.asString
  | _ => tag

/-- C5 counterexample: the code's preprocessing
(`strings.ReplaceAll(tag, "v", "")`) differs from stripping only a
leading prefix character: on the tag `1.2.3-dev` it also deletes the `v`
inside the prerelease identifier. -/
theorem stripTag_not_only_leading :
    ¬ stripTag "1.2.3-dev" = stripLeadingV "1.2.3-dev" := by decide

/-- C5 amended: the preprocessing removes every occurrence of the
character `v` from the tag, not only a leading one; a tag with and
without a leading `v` is still stripped to the same string — hence
parses to the same result — but a `v` elsewhere in the tag is removed
too (`1.2.3-dev` becomes `1.2.3-de`). -/
theorem stripTag_removes_every_v :
    (∀ s : String, stripTag ("v" ++ s) = stripTag s)
    ∧ (∀ s : String, semverParse (stripTag ("v" ++ s)) = semverParse (stripTag s))
    ∧ stripTag "1.2.3-dev" = "1.2.3-de" := by
  have h1 : ∀ s : String, stripTag ("v" ++ s) = stripTag s := by
    intro s
    have ht : ("v" ++ s).toList = 'v' :: s.toList := by
      simp [String.toList, String.data_append]
    simp [stripTag, ht]
  exact ⟨h1, fun s => by rw [h1], by decide⟩

/-- Witness for C5 (amended): leading-`v` invariance at a concrete
tag. -/
theorem stripTag_removes_every_v_witness :
    stripTag ("v" ++ "1.2.3") = stripTag "1.2.3" :=
  stripTag_removes_every_v.1 "1.2.3"

/-- C6 counterexample: on the spec's no-match example (platform
`windows-amd64`), the resolver's error is the fixed message
`release asset not found`, which does not name the searched platform. -/
theorem getAsset_error_not_naming_platform :
    getAsset { sampleUpdater with platform := "windows-amd64", assets := specAssets }
      = .error (.mk "release asset not found" [])
    ∧ strContains "release asset not found" "windows-amd64" = false := by decide

/-- C6 amended: asset resolution returns the first asset in listed order
whose name contains the platform string; when no asset name does, it
returns a not-found error with the fixed message
`release asset not found` (which does not name the platform); on the
spec's example list with platform `linux-amd64` it picks the first
asset. -/
theorem getAsset_first_match :
    (∀ (u : Updater) (l1 l2 : List ReleaseAsset) (a : ReleaseAsset),
      u.assets = l1 ++ a :: l2 →
      (∀ b ∈ l1, strContains b.name u.platform = false) →
      strContains a.name u.platform = true →
      getAsset u = .ok a)
    ∧ (∀ u : Updater,
      (∀ b ∈ u.assets, strContains b.name u.platform = false) →
      getAsset u = .error (.mk "release asset not found" []))
    ∧ getAsset { sampleUpdater with assets := specAssets }
      = .ok ⟨1, "app_linux-amd64.tar.gz"⟩ := by
  refine ⟨?_, ?_, by decide⟩
  · intro u l1 l2 a hassets hno hyes
    have key : ∀ l1' : List ReleaseAsset,
        (∀ b ∈ l1', strContains b.name u.platform = false) →
        (l1' ++ a :: l2).find? (fun ra => strContains ra.name u.platform) = some a := by
      intro l1'
      induction l1' with
      | nil => intro _; simp [List.find?_cons, hyes]
      | cons b bs ih =>
        intro hno'
        rw [List.cons_append]
        simp only [List.find?_cons, hno' b (by simp), if_false]
        exact ih fun x hx => hno' x (by simp [hx])
    have : u.assets.find? (fun ra => strContains ra.name u.platform) = some a := by
      rw [hassets]; exact key l1 hno
    simp [getAsset, this]
  · intro u hall
    have : u.assets.find? (fun ra => strContains ra.name u.platform) = none :=
      List.find?_eq_none.mpr fun x hx => by simp [hall x hx]
    simp [getAsset, this]

/-- Witness for C6 (amended): the first-match clause applied to the
spec's example list. -/
theorem getAsset_first_match_witness :
    getAsset { sampleUpdater with assets := specAssets }
      = .ok ⟨1, "app_linux-amd64.tar.gz"⟩ :=
  getAsset_first_match.1 { sampleUpdater with assets := specAssets }
    [] [⟨2, "app_darwin-arm64"⟩] ⟨1, "app_linux-amd64.tar.gz"⟩
    (by decide) (by simp) (by decide)

/-- Modelled from the spec: "If platform is a Unix-like OS" (§4.5 step 4)
— whether the platform string `{os}-{arch}` names a Unix-like operating
system, over the Go toolchain's Unix `GOOS` values. -/
def unixLikeOS (platform : String) : Bool :=
  ["aix", "android", "darwin", "dragonfly", "freebsd", "illumos", "ios",
    "linux", "netbsd", "openbsd", "solaris"].any fun os => strContains platform os

/-- C9 counterexample: `darwin-arm64` is a Unix-like platform, yet a
fully successful install on it never applies the permission step — the
code only checks whether the platform string contains `linux`. -/
theorem chmod_skipped_on_darwin :
    unixLikeOS "darwin-arm64" = true
    ∧ (installNewRelease { sampleUpdater with platform := "darwin-arm64" }
        allOkInstall fs0).1.chmodApplied = false := by decide

/-- C9 amended: once the install reaches the permission step (path
resolution and both renames succeeded), the executable permission bits
are set exactly when the platform string contains `linux`; all other
platforms — including non-Linux Unix-like ones — skip the step. -/
theorem chmod_exactly_on_linux (u : Updater) (o : InstallOutcome) (fs : Fs)
    (p : String) (h1 : o.exePathResult = .ok p) (h2 : o.renameOldResult = none)
    (h3 : o.renameNewResult = none) :
    (installNewRelease u o fs).1.chmodApplied = strContains u.platform "linux" := by
  obtain ⟨ep, ro, rn, ch, la, rm, rb⟩ := o
  simp only at h1 h2 h3
  subst h1; subst h2; subst h3
  cases hl : strContains u.platform "linux" with
  | true => cases ch <;> cases la <;> simp [installNewRelease, launchAndVerify, hl]
  | false => cases la <;> simp [installNewRelease, launchAndVerify, hl]

/-- Witness for C9 (amended): on a Linux platform the permission step
runs. -/
theorem chmod_exactly_on_linux_witness :
    (installNewRelease sampleUpdater allOkInstall fs0).1.chmodApplied
      = strContains sampleUpdater.platform "linux" :=
  chmod_exactly_on_linux sampleUpdater allOkInstall fs0 "/usr/local/bin/app"
    rfl rfl rfl

/-- C10: `Update` applies no version comparison of its own — whenever the
stored asset list has a platform-matching asset it downloads, whatever
the current version is (and installs when the download succeeds) — while
`CheckAndUpdate` is the operation that skips `Update` when `CheckLatest`
reports up-to-date. -/
theorem update_no_version_gate :
    (∀ (u : Updater) (v : Version) (tempDir : String) (dl : DownloadOutcome)
        (io : InstallOutcome) (fs : Fs) (a : ReleaseAsset),
      a ∈ u.assets → strContains a.name u.platform = true →
      (update { u with current := v } tempDir dl io fs).1.downloadAttempted = true
      ∧ (dl.apiResult = .ok () → dl.redirect = "" → dl.createResult = .ok () →
          dl.copyResult = none →
          (update { u with current := v } tempDir dl io fs).1.installAttempted = true))
    ∧ (∀ (u : Updater) (relResult : Except GoError Release) (tempDir : String)
        (dl : DownloadOutcome) (io : InstallOutcome) (fs : Fs),
      (checkLatest u relResult).1 = (true, none) →
      (checkAndUpdate u relResult tempDir dl io fs).1.updateAttempted = false) := by
  constructor
  · intro u v tempDir dl io fs a ha hp
    have hsome : (u.assets.find? fun ra => strContains ra.name u.platform).isSome :=
      List.find?_isSome.mpr ⟨a, ha, hp⟩
    cases hfind : u.assets.find? fun ra => strContains ra.name u.platform with
    | none => rw [hfind] at hsome; simp at hsome
    | some a' =>
      constructor
      · cases hdr : (downloadAsset
            { u with current := v, assetID := a'.id, assetName := a'.name }
            tempDir dl).1.result <;>
          simp [update, getAsset, hfind, hdr]
      · intro hd1 hd2 hd3 hd4
        obtain ⟨api, redir, create, copy⟩ := dl
        simp only at hd1 hd2 hd3 hd4
        subst hd1; subst hd2; subst hd3; subst hd4
        simp [update, getAsset, hfind, downloadAsset]
  · intro u relResult tempDir dl io fs h
    simp [checkAndUpdate, h]

/-- Witness for C10: with a matching asset stored and the current version
already equal to the remote one, the download is still attempted, while
`CheckAndUpdate` on an up-to-date check does not update. -/
theorem update_no_version_gate_witness :
    (update { { sampleUpdater with assets := specAssets } with current := currentV123 }
        "/tmp" ⟨.ok (), "", .ok (), none⟩ allOkInstall fs0).1.downloadAttempted = true
    ∧ (checkAndUpdate sampleUpdater (.ok ⟨"v1.2.3", specAssets⟩)
        "/tmp" ⟨.ok (), "", .ok (), none⟩ allOkInstall fs0).1.updateAttempted = false :=
  ⟨(update_no_version_gate.1 { sampleUpdater with assets := specAssets } currentV123
      "/tmp" ⟨.ok (), "", .ok (), none⟩ allOkInstall fs0
      ⟨1, "app_linux-amd64.tar.gz"⟩ (by simp [specAssets]) (by decide)).1,
    update_no_version_gate.2 sampleUpdater (.ok ⟨"v1.2.3", specAssets⟩)
      "/tmp" ⟨.ok (), "", .ok (), none⟩ allOkInstall fs0 (by decide)⟩

mutual

/-- Structural equality is reflexive on `GoError`. -/
theorem GoError.beq_refl : ∀ e : GoError, GoError.beq e e = true
  | .mk m ws => by simp [GoError.beq, GoError.listBeq_refl ws]

/-- Structural equality is reflexive on lists of `GoError`. -/
theorem GoError.listBeq_refl : ∀ l : List GoError, GoError.listBeq l l = true
  | [] => rfl
  | e :: es => by simp [GoError.listBeq, GoError.beq_refl e, GoError.listBeq_refl es]

end

/-- Every error transitively contains itself. -/
theorem errContains_self (e : GoError) : errContains e e = true := by
  cases e with
  | mk m ws => simp [errContains, GoError.beq_refl]

/-- A list contains `t` transitively when one of its members does. -/
theorem errListContains_of_contains {l : List GoError} {j t : GoError}
    (hj : j ∈ l) (ht : errContains j t = true) : errListContains l t = true := by
  induction l with
  | nil => cases hj
  | cons e es ih =>
    rcases List.mem_cons.mp hj with h | h
    · subst h; simp [errListContains, ht]
    · simp [errListContains, ih h]

/-- An error transitively contains whatever one of its wrapped errors
contains. -/
theorem errContains_of_wrapped {m : String} {ws : List GoError} {j t : GoError}
    (hj : j ∈ ws) (ht : errContains j t = true) :
    errContains (.mk m ws) t = true := by
  simp [errContains, errListContains_of_contains hj ht]

/-- Behaviour of the verification launch on failure: the returned error
wraps the launch error and — through the joined rollback error — each
rollback sub-step failure, while each rollback sub-step's filesystem
effect happens whenever that sub-step succeeds, independent of the
other's outcome. `fs` here is the filesystem after the install renames,
so `fs.old` holds the original binary. -/
theorem launchAndVerify_failure (o : InstallOutcome) (fs : Fs) (u : Updater)
    (c : Bool) (le : GoError) (h : o.launchResult = some le) :
    (launchAndVerify o fs u c).1.rollbackInvoked = true
    ∧ resultContains (launchAndVerify o fs u c).1.result le = true
    ∧ (∀ er, o.removeResult = some er →
        resultContains (launchAndVerify o fs u c).1.result
          (.mk "failed to remove the new downloaded binary" [er]) = true)
    ∧ (∀ er, o.renameBackResult = some er →
        resultContains (launchAndVerify o fs u c).1.result
          (.mk "failed to rename back the old binary" [er]) = true)
    ∧ (o.renameBackResult = none → (launchAndVerify o fs u c).2.2.exe = fs.old)
    ∧ (∀ er, o.removeResult = none → o.renameBackResult = some er →
        (launchAndVerify o fs u c).2.2.exe = none) := by
  obtain ⟨ep, ro, rn, ch, la, rm, rb⟩ := o
  simp only at h
  subst h
  cases rm with
  | none =>
    cases rb with
    | none =>
      refine ⟨rfl, ?_, ?_, ?_, ?_, ?_⟩
      · exact errContains_of_wrapped (by simp) (errContains_self le)
      · intro er her; cases her
      · intro er her; cases her
      · intro _; rfl
      · intro er _ her; cases her
    | some er2 =>
      refine ⟨rfl, ?_, ?_, ?_, ?_, ?_⟩
      · simp only [launchAndVerify, rollack, errorsJoin, resultContains,
          List.filterMap_cons, List.filterMap_nil, id_eq, Option.toList_some,
          List.nil_append, List.cons_append]
        exact errContains_of_wrapped
          (List.mem_cons_of_mem _ (List.mem_cons_self _ _)) (errContains_self le)
      · intro er her; cases her
      · intro er her
        obtain rfl : er2 = er := Option.some.inj her
        simp only [launchAndVerify, rollack, errorsJoin, resultContains,
          List.filterMap_cons, List.filterMap_nil, id_eq, Option.toList_some,
          List.nil_append, List.cons_append]
        exact errContains_of_wrapped (List.mem_cons_self _ _)
          (errContains_of_wrapped (List.mem_cons_self _ _) (errContains_self _))
      · intro her; cases her
      · intro er _ _; rfl
  | some er1 =>
    cases rb with
    | none =>
      refine ⟨rfl, ?_, ?_, ?_, ?_, ?_⟩
      · simp only [launchAndVerify, rollack, errorsJoin, resultContains,
          List.filterMap_cons, List.filterMap_nil, id_eq, Option.toList_some,
          List.nil_append, List.cons_append]
        exact errContains_of_wrapped
          (List.mem_cons_of_mem _ (List.mem_cons_self _ _)) (errContains_self le)
      · intro er her
        obtain rfl : er1 = er := Option.some.inj her
        simp only [launchAndVerify, rollack, errorsJoin, resultContains,
          List.filterMap_cons, List.filterMap_nil, id_eq, Option.toList_some,
          List.nil_append, List.cons_append]
        exact errContains_of_wrapped (List.mem_cons_self _ _)
          (errContains_of_wrapped (List.mem_cons_self _ _) (errContains_self _))
      · intro er her; cases her
      · intro _; rfl
      · intro er her; cases her
    | some er2 =>
      refine ⟨rfl, ?_, ?_, ?_, ?_, ?_⟩
      · simp only [launchAndVerify, rollack, errorsJoin, resultContains,
          List.filterMap_cons, List.filterMap_nil, id_eq, Option.toList_some,
          List.nil_append, List.cons_append]
        exact errContains_of_wrapped
          (List.mem_cons_of_mem _ (List.mem_cons_self _ _)) (errContains_self le)
      · intro er her
        obtain rfl : er1 = er := Option.some.inj her
        simp only [launchAndVerify, rollack, errorsJoin, resultContains,
          List.filterMap_cons, List.filterMap_nil, id_eq, Option.toList_some,
          List.nil_append, List.cons_append]
        exact errContains_of_wrapped (List.mem_cons_self _ _)
          (errContains_of_wrapped (List.mem_cons_self _ _) (errContains_self _))
      · intro er her
        obtain rfl : er2 = er := Option.some.inj her
        simp only [launchAndVerify, rollack, errorsJoin, resultContains,
          List.filterMap_cons, List.filterMap_nil, id_eq, Option.toList_some,
          List.nil_append, List.cons_append]
        exact errContains_of_wrapped (List.mem_cons_self _ _)
          (errContains_of_wrapped
            (List.mem_cons_of_mem _ (List.mem_cons_self _ _)) (errContains_self _))
      · intro her; cases her
      · intro er her; cases her

/-- C1: when launching the newly installed binary fails, the rollback
runs and attempts both sub-steps — a failing removal does not stop the
rename back, nor the other way round — with both failures collected in
the joined rollback error, and the error returned wraps the original
launch failure together with any rollback failure. -/
theorem rollback_collects_both_failures (u : Updater) (o : InstallOutcome)
    (fs : Fs) (p : String) (le : GoError)
    (h1 : o.exePathResult = .ok p) (h2 : o.renameOldResult = none)
    (h3 : o.renameNewResult = none)
    (h4 : strContains u.platform "linux" = true → o.chmodResult = none)
    (h5 : o.launchResult = some le) :
    (installNewRelease u o fs).1.rollbackInvoked = true
    ∧ resultContains (installNewRelease u o fs).1.result le = true
    ∧ (∀ er, o.removeResult = some er →
        resultContains (installNewRelease u o fs).1.result
          (.mk "failed to remove the new downloaded binary" [er]) = true)
    ∧ (∀ er, o.renameBackResult = some er →
        resultContains (installNewRelease u o fs).1.result
          (.mk "failed to rename back the old binary" [er]) = true)
    ∧ (o.renameBackResult = none → (installNewRelease u o fs).2.2.exe = fs.exe)
    ∧ (∀ er, o.removeResult = none → o.renameBackResult = some er →
        (installNewRelease u o fs).2.2.exe = none) := by
  have hred : installNewRelease u o fs
      = launchAndVerify o ⟨fs.tmp, fs.exe, none⟩ { u with exePath := p }
          (strContains u.platform "linux") := by
    obtain ⟨ep, ro, rn, ch, la, rm, rb⟩ := o
    simp only at h1 h2 h3 h4 h5
    subst h1; subst h2; subst h3; subst h5
    cases hl : strContains u.platform "linux" with
    | true => rw [h4 hl]; simp [installNewRelease, hl]
    | false => simp [installNewRelease, hl]
  rw [hred]
  exact launchAndVerify_failure o ⟨fs.tmp, fs.exe, none⟩
    { u with exePath := p } (strContains u.platform "linux") le h5

/-- Witness for C1: a concrete launch failure in which both rollback
sub-steps fail; the returned error wraps the launch failure and both
wrapped rollback failures. -/
theorem rollback_collects_both_failures_witness :
    (installNewRelease sampleUpdater
        ⟨.ok "/usr/local/bin/app", none, none, none, some (.mk "exit status 1" []),
          some (.mk "permission denied" []), some (.mk "no such file" [])⟩
        fs0).1.rollbackInvoked = true
    ∧ resultContains (installNewRelease sampleUpdater
        ⟨.ok "/usr/local/bin/app", none, none, none, some (.mk "exit status 1" []),
          some (.mk "permission denied" []), some (.mk "no such file" [])⟩
        fs0).1.result (.mk "exit status 1" []) = true
    ∧ resultContains (installNewRelease sampleUpdater
        ⟨.ok "/usr/local/bin/app", none, none, none, some (.mk "exit status 1" []),
          some (.mk "permission denied" []), some (.mk "no such file" [])⟩
        fs0).1.result
        (.mk "failed to remove the new downloaded binary"
          [.mk "permission denied" []]) = true
    ∧ resultContains (installNewRelease sampleUpdater
        ⟨.ok "/usr/local/bin/app", none, none, none, some (.mk "exit status 1" []),
          some (.mk "permission denied" []), some (.mk "no such file" [])⟩
        fs0).1.result
        (.mk "failed to rename back the old binary" [.mk "no such file" []]) = true := by
  have h := rollback_collects_both_failures sampleUpdater
    ⟨.ok "/usr/local/bin/app", none, none, none, some (.mk "exit status 1" []),
      some (.mk "permission denied" []), some (.mk "no such file" [])⟩
    fs0 "/usr/local/bin/app" (.mk "exit status 1" []) rfl rfl rfl (fun _ => rfl) rfl
  exact ⟨h.1, h.2.1, h.2.2.1 _ rfl, h.2.2.2.1 _ rfl⟩

end SelfUpdater
